import Mathlib

/-!
Verification of the BTC price tracker firmware (`main.c`).

The program has three phases: a threshold-selection loop, a UART
line-framing loop, and per-line processing (parse, format, alert).
We embed each phase as executable Lean functions and emit the
peripheral calls (LCD, LED, buzzer, delays) as an explicit event
trace.

C `float` values are modelled as exact decimal numbers `m / 10^e`
(`FVal` below).  Every numeric value the program manipulates — prices
and changes parsed from a decimal text field, and thresholds that are
multiples of 10000 — and every value mentioned by the specification is
exactly representable both in this form and in binary32, so on these
inputs the model computes the same comparisons, truncations and
formatted strings as the C program.
-/

/-- A C `float` value, modelled as the exact decimal `m / 10 ^ e`. -/
structure FVal where
  m : Int
  e : Nat
deriving DecidableEq

/-- Denominator `10 ^ e` of an `FVal`. -/
def FVal.den (a : FVal) : Int := (10 : Int) ^ a.e

/-- Rational value of an `FVal`. -/
def FVal.toRat (a : FVal) : ℚ := (a.m : ℚ) / ((10 : ℚ) ^ a.e)

/-- The C comparison `a < b` on two float values. -/
def FVal.blt (a b : FVal) : Bool := decide (a.m * b.den < b.m * a.den)

/-- The C cast `(int)a`: truncation toward zero. -/
def FVal.trunc (a : FVal) : Int := a.m.tdiv a.den

/-! ### Modelling `sscanf(buf, "BTC Price: $%f, 24h Change: %f%%", ...)`

`sscanf` is libc, not repository code; we model its documented
behaviour on this fixed format string: a whitespace character in the
format skips any run of input whitespace, a literal character must
match exactly, `%f` skips whitespace then reads an optionally signed
decimal number (we model the plain `digits [. digits]` forms, which
cover every input the claims mention; exponent/inf/nan forms are not
modelled), and `%%` skips whitespace then matches a literal `%`. -/

/-- C `isspace` characters. -/
def isSpc (c : Char) : Bool :=
  c = ' ' || c = '\t' || c = '\n' || c = '\x0b' || c = '\x0c' || c = '\r'

/-- Drop leading whitespace (a whitespace directive in a scanf format). -/
def skipWs : List Char → List Char
  | [] => []
  | c :: cs => if isSpc c then skipWs cs else c :: cs

/-- Match a run of literal format characters exactly. -/
def matchLit : List Char → List Char → Option (List Char)
  | [], cs => some cs
  | _ :: _, [] => none
  | l :: ls, c :: cs => if c = l then matchLit ls cs else none

/-- Match one literal character. -/
def matchChar (ch : Char) : List Char → Option (List Char)
  | [] => none
  | c :: cs => if c = ch then some cs else none

/-- Value of a digit string, most significant first. -/
def digitsToNat (ds : List Char) : Nat :=
  ds.foldl (fun acc d => acc * 10 + (d.toNat - 48)) 0

/-- The `%f` conversion: skip whitespace, optional sign, then a decimal
number `digits`, `digits.digits`, `digits.` or `.digits` (greedy, as
`strtod`). Returns the value and the unconsumed input. -/
def parseFloat (cs : List Char) : Option (FVal × List Char) :=
  let cs1 := skipWs cs
  let sr : Int × List Char :=
    match cs1 with
    | '+' :: r => (1, r)
    | '-' :: r => (-1, r)
    | _ => (1, cs1)
  let ds := sr.2.takeWhile Char.isDigit
  let cs2 := sr.2.dropWhile Char.isDigit
  match cs2 with
  | '.' :: r =>
    let fs := r.takeWhile Char.isDigit
    let r2 := r.dropWhile Char.isDigit
    if ds.isEmpty && fs.isEmpty then none
    else some (⟨sr.1 * (digitsToNat ds * 10 ^ fs.length + digitsToNat fs), fs.length⟩, r2)
  | _ => if ds.isEmpty then none else some (⟨sr.1 * digitsToNat ds, 0⟩, cs2)

/-- The whole `sscanf` call on format `"BTC Price: $%f, 24h Change: %f%%"`:
`some (price, change)` iff the call returns 2 (both fields converted). -/
def parseLine (cs : List Char) : Option (FVal × FVal) := do
  let r1 ← matchLit "BTC".toList cs
  let r2 ← matchLit "Price:".toList (skipWs r1)
  let r3 ← matchChar '$' (skipWs r2)
  let pr ← parseFloat r3
  let r4 ← matchChar ',' pr.2
  let r5 ← matchLit "24h".toList (skipWs r4)
  let r6 ← matchLit "Change:".toList (skipWs r5)
  let cr ← parseFloat r6
  let _ ← matchChar '%' (skipWs cr.2)
  pure (pr.1, cr.1)

/-! ### Modelling the `sprintf` formatting

`sprintf(line2, "$%d,%03d  %+.2f%%", thousands, remainder, change)` and
`sprintf(priceStr, "$%d,%03d", thousands, remainder)` from `main.c`. -/

/-- Decimal digits of a natural number (fuelled, so it reduces in the kernel). -/
def natDigitsAux : Nat → Nat → List Char → List Char
  | 0, _, acc => acc
  | fuel + 1, n, acc =>
    let d := Char.ofNat (48 + n % 10)
    if n < 10 then d :: acc else natDigitsAux fuel (n / 10) (d :: acc)

/-- Decimal rendering of a natural number. -/
def natStr (n : Nat) : String := String.mk (natDigitsAux (n + 1) n [])

/-- The `%d` conversion. -/
def intStr (i : Int) : String :=
  if i < 0 then "-" ++ natStr i.natAbs else natStr i.natAbs

/-- The `%03d` conversion: zero-pad to total width 3, sign included in the width. -/
def pad3 (i : Int) : String :=
  let s := natStr i.natAbs
  let w := if i < 0 then 2 else 3
  (if i < 0 then "-" else "") ++ String.mk (List.replicate (w - s.length) '0') ++ s

/-- The `%+.2f` conversion: forced sign and exactly two fraction digits.
The magnitude rounded to hundredths is `⌊|a| * 100 + 1/2⌋ =
(|m| * 200 + 10^e) / (2 * 10^e)` (half-up; printf agrees on every value
that is exact in hundredths, which covers all values the claims use). -/
def fmt2 (a : FVal) : String :=
  let t := (a.m.natAbs * 200 + 10 ^ a.e) / (2 * 10 ^ a.e)
  let f := t % 100
  (if a.m < 0 then "-" else "+") ++ natStr (t / 100) ++ "." ++
    (if f < 10 then "0" else "") ++ natStr f

/-- Row-2 string of a normal update: `sprintf("$%d,%03d  %+.2f%%", ...)` with
`thousands = intPrice / 1000` and `remainder = intPrice % 1000` (C truncated
division and remainder). -/
def line2Str (price change : FVal) : String :=
  let iP := price.trunc
  "$" ++ intStr (iP.tdiv 1000) ++ "," ++ pad3 (iP.tmod 1000) ++ "  " ++ fmt2 change ++ "%"

/-- Row-1 string inside the alarm loop: `sprintf("$%d,%03d", ...)`. -/
def priceRowStr (price : FVal) : String :=
  let iP := price.trunc
  "$" ++ intStr (iP.tdiv 1000) ++ "," ++ pad3 (iP.tmod 1000)

/-! ### Threshold-selection phase

The startup loop of `main`: cycle `adjustable_index` through the
`thresholds` menu on button presses, accumulate `elapsed` in 100 ms
ticks, reset `elapsed` on each press, and lock the selected value when
`elapsed` reaches 4000 ms. -/

/-- The `thresholds[]` menu from `main.c`. -/
def thresholds : List Int :=
  [10000, 20000, 30000, 40000, 50000, 60000, 70000, 80000,
   90000, 100000, 110000, 120000]

/-- `total_thresholds = sizeof(thresholds)/sizeof(thresholds[0])`. -/
def total_thresholds : Nat := thresholds.length

/-- State of the selection loop: `adjustable_index` and `elapsed` (ms). -/
structure SelState where
  adjustable_index : Nat
  elapsed : Nat
deriving DecidableEq

/-- Initial selection state: index 0, elapsed 0. -/
def selInit : SelState := ⟨0, 0⟩

/-- The press branch of the loop body:
`adjustable_index = (adjustable_index + 1) % total_thresholds; elapsed = 0`. -/
def selPress (s : SelState) : SelState :=
  ⟨(s.adjustable_index + 1) % total_thresholds, 0⟩

/-- The unconditional tail of the loop body: `DelayMs(100); elapsed += 100`. -/
def selTick (s : SelState) : SelState :=
  ⟨s.adjustable_index, s.elapsed + 100⟩

/-- One iteration of the selection loop body, given the sampled button state. -/
def selIter (s : SelState) (pressed : Bool) : SelState :=
  selTick (if pressed then selPress s else s)

/-- The guarded selection loop `while (elapsed < 4000)`, run over a list of
button samples (one per iteration; samples beyond loop exit are ignored). -/
def selRun : SelState → List Bool → SelState
  | s, [] => s
  | s, p :: ps => if s.elapsed < 4000 then selRun (selIter s p) ps else s

/-- The lock step after the loop:
`local_threshold = (float)thresholds[adjustable_index]`. -/
def lockThreshold (s : SelState) : FVal :=
  ⟨thresholds.getD s.adjustable_index 0, 0⟩

/-! ### Main loop

Per-iteration the program reads one UART byte; on a terminator (or a
full buffer) it parses the buffered line and runs the alert logic.
Peripheral calls are recorded as events.  The alarm sub-loop polls the
push button; we pass each line-processing step the list of button
samples it would observe (one per poll). -/

/-- One peripheral call. `ledOff` is `GPIOD->DATA &= ~0x03` (both LED
channels off); `ledNormal` is `RGB_LED_Set_Normal(change)`;
`flashYellow` is `RGB_LED_Flash_Yellow()` (toggle red+green). -/
inductive Ev where
  | lcdClear : Ev
  | lcdCursor : Nat → Nat → Ev
  | lcdWrite : String → Ev
  | flashYellow : Ev
  | buzzerToggle : Ev
  | buzzerOff : Ev
  | ledNormal : FVal → Ev
  | ledOff : Ev
  | delay : Nat → Ev
deriving DecidableEq

/-- The body of the alarm sub-loop: render price / "BUY NOW", flash,
toggle the buzzer, wait 150 ms. -/
def alarmIter (pstr : String) : List Ev :=
  [Ev.lcdClear, Ev.lcdCursor 0 0, Ev.lcdWrite pstr, Ev.lcdCursor 0 1,
   Ev.lcdWrite "BUY NOW", Ev.flashYellow, Ev.buzzerToggle, Ev.delay 150]

/-- The alarm sub-loop `while (price < local_threshold && !PushButton_Pressed())`.
`price` and `local_threshold` never change inside the loop, so the left
conjunct is re-evaluated on the same values each iteration; the button is
polled once per guard evaluation (short-circuit: not polled when the price
test already fails).  Returns the emitted events and whether the loop
exited within the supplied samples (`false` = still blocked in the loop). -/
def alarmLoop (price th : FVal) (pstr : String) : List Bool → List Ev × Bool
  | [] => ([], !(price.blt th))
  | b :: bs =>
    if price.blt th && !b then
      let r := alarmLoop price th pstr bs
      (alarmIter pstr ++ r.1, r.2)
    else ([], true)

/-- The normal-rendering tail of the successful-parse branch: label and
formatted line, `RGB_LED_Set_Normal(change)`, `Buzzer_Off()`. -/
def normalEvents (l2 : String) (change : FVal) : List Ev :=
  [Ev.lcdClear, Ev.lcdCursor 0 0, Ev.lcdWrite "BTC Price:", Ev.lcdCursor 0 1,
   Ev.lcdWrite l2, Ev.ledNormal change, Ev.buzzerOff]

/-- The failed-parse branch: "Loading..." plus all indicators off. -/
def failEvents : List Ev :=
  [Ev.lcdClear, Ev.lcdCursor 0 0, Ev.lcdWrite "Loading...", Ev.ledOff, Ev.buzzerOff]

/-- Processing of a successfully parsed update (`sscanf` returned 2):
the alarm block, the latch reset, and the normal render.  Returns
`(events, alarmStopped', completed)`; `completed = false` means the
program is still inside the alarm sub-loop (no button press arrived). -/
def handleParsed (th : FVal) (latch : Bool) (price change : FVal)
    (buttons : List Bool) : List Ev × Bool × Bool :=
  let l2 := line2Str price change
  if price.blt th then
    let r := alarmLoop price th (priceRowStr price) buttons
    if r.2 then
      (r.1 ++ [Ev.buzzerOff] ++ normalEvents l2 change, true, true)
    else (r.1, latch, false)
  else
    (normalEvents l2 change, false, true)

/-- Processing of one terminated line: parse, then alert or idle. -/
def lineStep (th : FVal) (latch : Bool) (line : List Char)
    (buttons : List Bool) : List Ev × Bool × Bool :=
  match parseLine line with
  | some pc => handleParsed th latch pc.1 pc.2 buttons
  | none => (failEvents, latch, true)

/-- Line-terminator test `(c == '\n') || (c == '\r')`. -/
def isTerm (c : Char) : Bool := c = '\n' || c = '\r'

/-- State carried across main-loop iterations: the locked threshold, the
`uart_buffer` contents below the write cursor (`index = buffer.length`),
and the `alarmStopped` flag. -/
structure MainState where
  threshold : FVal
  buffer : List Char
  alarmStopped : Bool
deriving DecidableEq

/-- One main-loop iteration for the received byte `c` (with `cap` =
`BUFFER_SIZE`, whose value `tracker.h` fixes; all results hold for any
capacity): on `'\n'`, `'\r'` or `index >= BUFFER_SIZE - 1` the buffer is
null-terminated at the cursor (the byte `c` is not stored), the line is
processed and the cursor reset; otherwise `c` is appended. -/
def mainStep (cap : Nat) (s : MainState) (c : Char) (buttons : List Bool) :
    MainState × List Ev × Bool :=
  if isTerm c = true ∨ cap - 1 ≤ s.buffer.length then
    let r := lineStep s.threshold s.alarmStopped s.buffer buttons
    (⟨s.threshold, [], r.2.1⟩, r.1, r.2.2)
  else
    (⟨s.threshold, s.buffer ++ [c], s.alarmStopped⟩, [], true)

/-- The main loop over a list of inputs, each one received byte paired with
the button samples available to that iteration's alarm sub-loop.  If an
iteration does not complete (stuck in the alarm sub-loop), the remaining
input is never consumed. -/
def mainRun (cap : Nat) : MainState → List (Char × List Bool) → MainState × List Ev
  | s, [] => (s, [])
  | s, (c, bs) :: rest =>
    let r := mainStep cap s c bs
    if r.2.2 = true then
      let r2 := mainRun cap r.1 rest
      (r2.1, r.2.1 ++ r2.2)
    else (r.1, r.2.1)

/-! ### Helper lemmas -/

/-- Folding the selection-loop body over any sample sequence advances the
menu index by the number of presses, modulo the menu length. -/
lemma foldl_selIter_index (ps : List Bool) :
    ∀ s : SelState, s.adjustable_index < total_thresholds →
      (List.foldl selIter s ps).adjustable_index
        = (s.adjustable_index + ps.count true) % total_thresholds := by
  induction ps with
  | nil =>
    intro s hs
    simpa using (Nat.mod_eq_of_lt hs).symm
  | cons p ps ih =>
    intro s hs
    have ht : total_thresholds = 12 := rfl
    cases p with
    | false =>
      have hsel : selIter s false = ⟨s.adjustable_index, s.elapsed + 100⟩ := rfl
      have hc : List.count true (false :: ps) = List.count true ps := by simp
      rw [List.foldl_cons, hsel, ih ⟨s.adjustable_index, s.elapsed + 100⟩ hs, hc]
    | true =>
      have hsel : selIter s true
          = ⟨(s.adjustable_index + 1) % total_thresholds, 100⟩ := rfl
      have hc : List.count true (true :: ps) = List.count true ps + 1 := by simp
      rw [List.foldl_cons, hsel,
        ih ⟨(s.adjustable_index + 1) % total_thresholds, 100⟩
          (Nat.mod_lt _ (by decide)), hc]
      dsimp only
      rw [ht]
      omega

/-- Running the guarded selection loop on press-free samples leaves the index
at 0 and accumulates 100 ms per iteration, capped by the 4000 ms window. -/
lemma selRun_replicate_false :
    ∀ (n e : Nat), e ≤ 4000 → e % 100 = 0 →
      selRun ⟨0, e⟩ (List.replicate n false) = ⟨0, min 4000 (e + 100 * n)⟩ := by
  intro n
  induction n with
  | zero =>
    intro e he _
    simp [selRun, List.replicate]
    omega
  | succ n ih =>
    intro e he hm
    rw [List.replicate_succ]
    by_cases h : e < 4000
    · have : selIter ⟨0, e⟩ false = ⟨0, e + 100⟩ := rfl
      rw [selRun, if_pos h, this, ih (e + 100) (by omega) (by omega)]
      congr 1
      omega
    · rw [selRun, if_neg h]
      have : e = 4000 := by omega
      subst this
      congr 1
      omega

/-! ### Claims about the threshold-selection phase -/

/-- Claim C2: during threshold selection, after any sequence of loop
iterations with N button-press edges among them the selected menu index is
N mod `total_thresholds` (starting from index 0), and the press branch of
the body resets the accumulated elapsed time to 0 (so the 4000 ms window
restarts) while advancing the index cyclically. -/
theorem selection_index_cycles :
    (∀ ps : List Bool,
        (List.foldl selIter selInit ps).adjustable_index
          = ps.count true % total_thresholds)
  ∧ ∀ s : SelState,
      (selPress s).elapsed = 0
      ∧ (selPress s).adjustable_index
          = (s.adjustable_index + 1) % total_thresholds := by
  constructor
  · intro ps
    simpa [selInit] using foldl_selIter_index ps selInit (by decide)
  · intro s
    exact ⟨rfl, rfl⟩

/-- Claim C3: if no press occurs during the whole window, the loop exits
with elapsed time 4000 ms and index 0 still selected, and the locked
threshold is the first menu entry `thresholds[0] = 10000`. -/
theorem lock_default_when_no_press (n : Nat) (h : 40 ≤ n) :
    selRun selInit (List.replicate n false) = ⟨0, 4000⟩
  ∧ lockThreshold (selRun selInit (List.replicate n false)) = ⟨10000, 0⟩
  ∧ thresholds.getD 0 0 = 10000 := by
  have h1 := selRun_replicate_false n 0 (by omega) (by omega)
  have h2 : min 4000 (0 + 100 * n) = 4000 := by omega
  have h3 : selRun selInit (List.replicate n false) = ⟨0, 4000⟩ := by
    rw [selInit, h1, h2]
  exact ⟨h3, by rw [h3]; rfl, rfl⟩

/-- Witness for C3 at the shortest press-free window (40 iterations of
100 ms). -/
theorem lock_default_when_no_press_witness :
    selRun selInit (List.replicate 40 false) = ⟨0, 4000⟩
  ∧ lockThreshold (selRun selInit (List.replicate 40 false)) = ⟨10000, 0⟩
  ∧ thresholds.getD 0 0 = 10000 :=
  lock_default_when_no_press 40 (by decide)

/-! ### Claims about parsing, formatting and the normal state -/

/-- Claim C4: the line `"BTC Price: $63250.50, 24h Change: -1.25%"` parses
to price 63250.50 and change −1.25 (the `FVal`s shown denote exactly these
rationals), and processing it renders row 2 as `"$63,250  -1.25%"`:
thousands and zero-padded 3-digit remainder of the truncated dollar
amount, change with forced sign and exactly two decimals. -/
theorem parse_roundtrip_render :
    parseLine ("BTC Price: $63250.50, 24h Change: -1.25%".toList)
      = some (⟨6325050, 2⟩, ⟨-125, 2⟩)
  ∧ (FVal.mk 6325050 2).toRat = 63250.5
  ∧ (FVal.mk (-125) 2).toRat = -1.25
  ∧ line2Str ⟨6325050, 2⟩ ⟨-125, 2⟩ = "$63,250  -1.25%"
  ∧ lineStep ⟨10000, 0⟩ false ("BTC Price: $63250.50, 24h Change: -1.25%".toList) []
      = ([Ev.lcdClear, Ev.lcdCursor 0 0, Ev.lcdWrite "BTC Price:", Ev.lcdCursor 0 1,
          Ev.lcdWrite "$63,250  -1.25%", Ev.ledNormal ⟨-125, 2⟩, Ev.buzzerOff],
         false, true) :=
  ⟨by decide, by norm_num [FVal.toRat], by norm_num [FVal.toRat], by decide, by decide⟩

/-- Claim C5: a terminated line that fails the pattern match is handled
totally (the step function is total, hence no crash): the program renders
"Loading...", forces both LED channels and the buzzer off, resets the line
buffer to empty (so the bytes are never re-parsed), and reports the
iteration complete, i.e. keeps accepting input. -/
theorem malformed_line_recovery (cap : Nat) (th : FVal) (latch : Bool)
    (buf : List Char) (c : Char) (bs : List Bool)
    (hterm : isTerm c = true) (hfail : parseLine buf = none) :
    mainStep cap ⟨th, buf, latch⟩ c bs
      = (⟨th, [], latch⟩,
         [Ev.lcdClear, Ev.lcdCursor 0 0, Ev.lcdWrite "Loading...",
          Ev.ledOff, Ev.buzzerOff],
         true) := by
  simp [mainStep, hterm, lineStep, hfail, failEvents]

/-- Witness for C5: the line `"garbage"` terminated by a newline. -/
theorem malformed_line_recovery_witness :
    mainStep 128 ⟨⟨70000, 0⟩, "garbage".toList, false⟩ '\n' []
      = (⟨⟨70000, 0⟩, [], false⟩,
         [Ev.lcdClear, Ev.lcdCursor 0 0, Ev.lcdWrite "Loading...",
          Ev.ledOff, Ev.buzzerOff],
         true) :=
  malformed_line_recovery 128 ⟨70000, 0⟩ false "garbage".toList '\n' []
    (by decide) (by decide)

/-- Claim C7: every successfully parsed update whose price is at or above
the locked threshold clears `alarmStopped` to false, renders "BTC Price:"
on row 1 and the formatted price-and-change string on row 2, and switches
the buzzer off. -/
theorem normal_update_render (th price change : FVal) (latch : Bool)
    (line : List Char) (bs : List Bool)
    (hp : parseLine line = some (price, change))
    (hge : price.blt th = false) :
    lineStep th latch line bs
      = ([Ev.lcdClear, Ev.lcdCursor 0 0, Ev.lcdWrite "BTC Price:", Ev.lcdCursor 0 1,
          Ev.lcdWrite (line2Str price change), Ev.ledNormal change, Ev.buzzerOff],
         false, true) := by
  simp [lineStep, hp, handleParsed, hge, normalEvents]

/-- Witness for C7: the round-trip line against the default 10000 threshold. -/
theorem normal_update_render_witness :
    lineStep ⟨10000, 0⟩ true ("BTC Price: $63250.50, 24h Change: -1.25%".toList) []
      = ([Ev.lcdClear, Ev.lcdCursor 0 0, Ev.lcdWrite "BTC Price:", Ev.lcdCursor 0 1,
          Ev.lcdWrite (line2Str ⟨6325050, 2⟩ ⟨-125, 2⟩), Ev.ledNormal ⟨-125, 2⟩,
          Ev.buzzerOff],
         false, true) :=
  normal_update_render ⟨10000, 0⟩ ⟨6325050, 2⟩ ⟨-125, 2⟩ true
    ("BTC Price: $63250.50, 24h Change: -1.25%".toList) [] (by decide) (by decide)

/-! ### Claims about line framing and buffer safety -/

/-- Feeding only non-terminator bytes that fit below `cap - 1` appends each
byte to the buffer and emits nothing. -/
lemma mainRun_nonterm_append (cap : Nat) :
    ∀ (cs : List Char) (s : MainState),
      (∀ c ∈ cs, isTerm c = false) →
      s.buffer.length + cs.length ≤ cap - 1 →
      mainRun cap s (cs.map fun c => (c, []))
        = (⟨s.threshold, s.buffer ++ cs, s.alarmStopped⟩, []) := by
  intro cs
  induction cs with
  | nil =>
    intro s _ _
    cases s
    simp [mainRun]
  | cons c cs ih =>
    intro s hnt hlen
    have hc : isTerm c = false := hnt c (by simp)
    have hlt : s.buffer.length < cap - 1 := by
      simp only [List.length_cons] at hlen
      omega
    have hcond : ¬(isTerm c = true ∨ cap - 1 ≤ s.buffer.length) := by
      rintro (h | h)
      · rw [hc] at h
        exact Bool.noConfusion h
      · omega
    simp only [List.map_cons, mainRun, mainStep, if_neg hcond]
    rw [ih ⟨s.threshold, s.buffer ++ [c], s.alarmStopped⟩
          (fun d hd => hnt d (by simp [hd]))
          (by
            simp only [List.length_append, List.length_cons, List.length_nil,
              List.length_cons] at hlen ⊢
            omega)]
    simp

/-- Claim C6: the write cursor never exceeds `BUFFER_SIZE - 1` (so the byte
store at the cursor and the null store both stay inside the buffer), any
byte observed while the cursor is at `cap - 1` triggers the line
termination (null-terminate, parse attempt, cursor reset) regardless of
its value, and feeding `cap - 1` non-terminator bytes drives the cursor
exactly to `cap - 1`, forcing that flush on the next byte. -/
theorem buffer_never_overflows :
    (∀ (cap : Nat) (s : MainState) (c : Char) (bs : List Bool),
        s.buffer.length ≤ cap - 1 →
        ((mainStep cap s c bs).1.buffer.length ≤ cap - 1
          ∧ (s.buffer.length = cap - 1 →
              (mainStep cap s c bs).1.buffer = []
              ∧ (mainStep cap s c bs).2.1
                  = (lineStep s.threshold s.alarmStopped s.buffer bs).1)))
  ∧ (∀ (cap : Nat) (th : FVal) (latch : Bool) (cs : List Char),
        (∀ c ∈ cs, isTerm c = false) → cs.length = cap - 1 →
        (mainRun cap ⟨th, [], latch⟩ (cs.map fun c => (c, []))).1.buffer = cs) := by
  constructor
  · intro cap s c bs hle
    by_cases hcond : isTerm c = true ∨ cap - 1 ≤ s.buffer.length
    · unfold mainStep
      rw [if_pos hcond]
      exact ⟨by simp, fun _ => ⟨rfl, rfl⟩⟩
    · have hlt : s.buffer.length < cap - 1 := by
        rcases not_or.mp hcond with ⟨_, h2⟩
        omega
      unfold mainStep
      rw [if_neg hcond]
      constructor
      · simp only [List.length_append, List.length_cons, List.length_nil]
        omega
      · intro heq
        exact absurd heq (by omega)
  · intro cap th latch cs hnt hlen
    rw [mainRun_nonterm_append cap cs ⟨th, [], latch⟩ hnt
          (by simp [hlen])]
    simp

/-- Witness for C6: capacity 4, the three bytes "abc" fill the buffer to
the forced-flush point, and a fourth non-terminator byte flushes. -/
theorem buffer_never_overflows_witness :
    ((mainStep 4 ⟨⟨10000, 0⟩, ['a', 'b', 'c'], false⟩ 'x' []).1.buffer.length ≤ 3
      ∧ (mainStep 4 ⟨⟨10000, 0⟩, ['a', 'b', 'c'], false⟩ 'x' []).1.buffer = [])
  ∧ (mainRun 4 ⟨⟨10000, 0⟩, [], false⟩
        (['a', 'b', 'c'].map fun c => (c, []))).1.buffer = ['a', 'b', 'c'] := by
  have h1 := (buffer_never_overflows.1 4 ⟨⟨10000, 0⟩, ['a', 'b', 'c'], false⟩ 'x' []
    (by decide))
  have h2 := buffer_never_overflows.2 4 ⟨10000, 0⟩ false ['a', 'b', 'c']
    (by decide) (by decide)
  exact ⟨⟨h1.1, (h1.2 (by decide)).1⟩, h2⟩

/-! ### Claims about the alarm sub-loop -/

/-- With the price below the threshold, the alarm loop runs one full
iteration per unpressed button sample. -/
lemma alarmLoop_replicate_false (price th : FVal) (pstr : String)
    (hlt : price.blt th = true) :
    ∀ n : Nat,
      alarmLoop price th pstr (List.replicate n false)
        = ((List.replicate n (alarmIter pstr)).flatten, false) := by
  intro n
  induction n with
  | zero => simp [alarmLoop, hlt]
  | succ n ih =>
    rw [List.replicate_succ, alarmLoop, hlt]
    simp only [Bool.not_false, Bool.and_true, if_pos]
    rw [ih]
    simp [List.replicate_succ]

/-- With the price below the threshold, the loop exits exactly at the first
pressed sample, having emitted one iteration per earlier sample. -/
lemma alarmLoop_exit_at_press (price th : FVal) (pstr : String)
    (hlt : price.blt th = true) :
    ∀ (n : Nat) (rest : List Bool),
      alarmLoop price th pstr (List.replicate n false ++ true :: rest)
        = ((List.replicate n (alarmIter pstr)).flatten, true) := by
  intro n
  induction n with
  | zero =>
    intro rest
    simp [alarmLoop]
  | succ n ih =>
    intro rest
    rw [List.replicate_succ, List.cons_append, alarmLoop, hlt]
    simp only [Bool.not_false, Bool.and_true, if_pos]
    rw [ih rest]
    simp [List.replicate_succ]

/-- Claim C8: once the alarm sub-loop is entered for a below-threshold
price, each iteration clears the LCD, renders the formatted price on row 1
and "BUY NOW" on row 2, flashes the amber composite, toggles the buzzer
and waits 150 ms; the loop consumes only button samples (it reads no
serial data, so the price it tests never changes), it runs one iteration
per unpressed sample and does not exit while none is pressed, it exits at
the first pressed sample, and on exit the buzzer is switched off and
`alarmStopped` is set to true (followed by the fall-through render of the
same update). -/
theorem alarm_subloop_behaviour :
    (∀ pstr : String, alarmIter pstr
        = [Ev.lcdClear, Ev.lcdCursor 0 0, Ev.lcdWrite pstr, Ev.lcdCursor 0 1,
           Ev.lcdWrite "BUY NOW", Ev.flashYellow, Ev.buzzerToggle, Ev.delay 150])
  ∧ (∀ (price th : FVal) (pstr : String) (n : Nat),
        price.blt th = true →
        alarmLoop price th pstr (List.replicate n false)
          = ((List.replicate n (alarmIter pstr)).flatten, false))
  ∧ (∀ (price th : FVal) (pstr : String) (n : Nat) (rest : List Bool),
        price.blt th = true →
        alarmLoop price th pstr (List.replicate n false ++ true :: rest)
          = ((List.replicate n (alarmIter pstr)).flatten, true))
  ∧ (∀ (th : FVal) (latch : Bool) (price change : FVal) (bs : List Bool),
        price.blt th = true →
        (alarmLoop price th (priceRowStr price) bs).2 = true →
        handleParsed th latch price change bs
          = ((alarmLoop price th (priceRowStr price) bs).1
              ++ [Ev.buzzerOff] ++ normalEvents (line2Str price change) change,
             true, true)) := by
  refine ⟨fun _ => rfl,
    fun price th pstr n h => alarmLoop_replicate_false price th pstr h n,
    fun price th pstr n rest h => alarmLoop_exit_at_press price th pstr h n rest,
    ?_⟩
  intro th latch price change bs hlt hexit
  unfold handleParsed
  rw [if_pos (by rw [hlt]) ]
  rw [if_pos hexit]

/-- Witness for C8: price 65000, threshold 70000, one unpressed sample
followed by the acknowledgement press. -/
theorem alarm_subloop_behaviour_witness :
    alarmLoop ⟨65000, 0⟩ ⟨70000, 0⟩ "$65,000" (List.replicate 1 false ++ true :: [])
      = ((List.replicate 1 (alarmIter "$65,000")).flatten, true)
  ∧ alarmLoop ⟨65000, 0⟩ ⟨70000, 0⟩ "$65,000" (List.replicate 2 false)
      = ((List.replicate 2 (alarmIter "$65,000")).flatten, false)
  ∧ handleParsed ⟨70000, 0⟩ false ⟨65000, 0⟩ ⟨-100, 2⟩ [false, true]
      = ((alarmLoop ⟨65000, 0⟩ ⟨70000, 0⟩ (priceRowStr ⟨65000, 0⟩) [false, true]).1
          ++ [Ev.buzzerOff]
          ++ normalEvents (line2Str ⟨65000, 0⟩ ⟨-100, 2⟩) ⟨-100, 2⟩,
         true, true) :=
  ⟨alarm_subloop_behaviour.2.2.1 ⟨65000, 0⟩ ⟨70000, 0⟩ "$65,000" 1 [] (by decide),
   alarm_subloop_behaviour.2.1 ⟨65000, 0⟩ ⟨70000, 0⟩ "$65,000" 2 (by decide),
   alarm_subloop_behaviour.2.2.2 ⟨70000, 0⟩ false ⟨65000, 0⟩ ⟨-100, 2⟩ [false, true]
     (by decide) (by decide)⟩

/-! ### Frame and non-interference claims -/

/-- Claim C9: `local_threshold` is written once, at the end of the
selection phase, and the main loop never mutates it: every single
iteration, and hence every finite run, leaves it unchanged. -/
theorem threshold_never_mutated :
    (∀ (cap : Nat) (s : MainState) (c : Char) (bs : List Bool),
        (mainStep cap s c bs).1.threshold = s.threshold)
  ∧ (∀ (cap : Nat) (inp : List (Char × List Bool)) (s : MainState),
        (mainRun cap s inp).1.threshold = s.threshold) := by
  have hstep : ∀ (cap : Nat) (s : MainState) (c : Char) (bs : List Bool),
      (mainStep cap s c bs).1.threshold = s.threshold := by
    intro cap s c bs
    unfold mainStep
    split <;> rfl
  refine ⟨hstep, ?_⟩
  intro cap inp
  induction inp with
  | nil => intro s; rfl
  | cons x rest ih =>
    intro s
    obtain ⟨c, bs⟩ := x
    show (if (mainStep cap s c bs).2.2 = true then _ else _ : MainState × List Ev).1.threshold = _
    split
    · rw [ih (mainStep cap s c bs).1, hstep]
    · rw [hstep]

/-- The events and the completion flag of a line-processing step do not
depend on the incoming `alarmStopped` value (it is written, never read). -/
lemma lineStep_latch_irrelevant (th : FVal) (line : List Char)
    (bs : List Bool) (a b : Bool) :
    (lineStep th a line bs).1 = (lineStep th b line bs).1
  ∧ (lineStep th a line bs).2.2 = (lineStep th b line bs).2.2 := by
  cases h : parseLine line with
  | none => simp [lineStep, h]
  | some pc =>
    simp only [lineStep, h, handleParsed]
    split
    · split <;> exact ⟨rfl, rfl⟩
    · exact ⟨rfl, rfl⟩

/-- Claim C10: two executions whose start states differ only in
`alarmStopped` and that receive the same bytes and button samples produce
identical event traces — every LCD write, LED setting, buzzer action and
delay is the same, because `alarmStopped` is written but never read. -/
theorem latch_never_observable (cap : Nat) (inp : List (Char × List Bool))
    (th : FVal) (buf : List Char) (a b : Bool) :
    (mainRun cap ⟨th, buf, a⟩ inp).2 = (mainRun cap ⟨th, buf, b⟩ inp).2 := by
  induction inp generalizing buf a b with
  | nil => rfl
  | cons x rest ih =>
    obtain ⟨c, bs⟩ := x
    by_cases hcond : isTerm c = true ∨ cap - 1 ≤ buf.length
    · have h := lineStep_latch_irrelevant th buf bs a b
      have hs : ∀ l : Bool, mainStep cap ⟨th, buf, l⟩ c bs
          = (⟨th, [], (lineStep th l buf bs).2.1⟩,
             (lineStep th l buf bs).1, (lineStep th l buf bs).2.2) := by
        intro l
        unfold mainStep
        rw [if_pos hcond]
      simp only [mainRun]
      rw [hs a, hs b]
      dsimp only
      rw [h.1, h.2]
      split
      · dsimp only
        rw [ih [] (lineStep th a buf bs).2.1 (lineStep th b buf bs).2.1]
      · rfl
    · have hs : ∀ l : Bool, mainStep cap ⟨th, buf, l⟩ c bs
          = (⟨th, buf ++ [c], l⟩, [], true) := by
        intro l
        unfold mainStep
        rw [if_neg hcond]
      simp only [mainRun]
      rw [hs a, hs b]
      dsimp only
      rw [if_pos rfl, if_pos rfl]
      dsimp only
      rw [ih (buf ++ [c]) a b]

/-! ### The latch defect (claim C1) -/

/-- Claim C1 fails on the code: `alarmStopped` is never read, so a parsed
price below the threshold re-enters the alarm sub-loop even when the latch
is already true.  With the latch set and the button unpressed at the first
poll, processing `"BTC Price: $65000.00, 24h Change: -1.00%"` against
threshold 70000 emits the amber flash and the buzzer toggle (the claim
demands a Normal-style render with neither), and with no press at all the
iteration never completes. -/
theorem alarm_reentered_despite_latch :
    (Ev.flashYellow ∈ (lineStep ⟨70000, 0⟩ true
        ("BTC Price: $65000.00, 24h Change: -1.00%".toList) [false, true]).1
      ∧ Ev.buzzerToggle ∈ (lineStep ⟨70000, 0⟩ true
          ("BTC Price: $65000.00, 24h Change: -1.00%".toList) [false, true]).1)
  ∧ (lineStep ⟨70000, 0⟩ true
        ("BTC Price: $65000.00, 24h Change: -1.00%".toList) [false]).2.2 = false :=
  ⟨⟨by decide, by decide⟩, by decide⟩
